import Mathlib

/-!
Verification development for the dispatch-and-session-orchestration core of
the claude-telegram repository (TypeScript).  The relevant source functions
(`runClaude`, `extractResult`, `parseStreamLine` and the stdout/close handlers
in claude.ts; `SessionStore` in session.ts; `sanitizeErrorForUser`,
`runBeforeClaudeHooks`, `runAfterClaudeHooks` and `dispatchToClaude` in
bot.ts) are shallowly embedded: JS strings become `String` or `List Char`,
JS objects become structures, mutable state becomes explicit state passing,
and the asynchronous stdout stream becomes a fold over the list of chunks.
External collaborators (the `JSON.parse` of the event stream, the `uuid`
library, Node's `ChildProcess`) are abstracted or modelled from their
documented behaviour, as noted at each definition.
-/

/-- Whitespace recognised by the model of JS `trim` (ASCII subset of `\s`:
space, tab, line feed, carriage return, vertical tab, form feed). -/
def jsWS (c : Char) : Bool :=
  c = ' ' || c = '\t' || c = '\n' || c = '\r' || c = '\x0b' || c = '\x0c'

/-- Model of JS `String.prototype.trim` on a list of characters. -/
def trimChars (l : List Char) : List Char :=
  ((l.dropWhile jsWS).reverse.dropWhile jsWS).reverse

/-- Model of JS `a.includes(b)` (substring containment). -/
def strIncludes (s sub : String) : Bool :=
  decide (sub.data <:+: s.data)

/-- Model of JS `s.slice(-n)` for `n > 0`: the last `n` characters of `s`
(the whole string when it is shorter than `n`). -/
def strTakeRight (s : String) (n : Nat) : String :=
  ⟨(s.data.reverse.take n).reverse⟩

/-- Model of JS `s.slice(0, n)`: the first `n` characters of `s`. -/
def strTake (s : String) (n : Nat) : String :=
  ⟨s.data.take n⟩

/-! ## Streamed-event parsing (claude.ts)

The stdout handler of `runClaude` buffers chunks, splits on newlines, keeps
the final segment as the carry-over buffer and feeds every completed line to
`parseStreamLine`; the `close` handler gives a surviving partial line one
final parse attempt.  The JSON parser used inside `parseStreamLine` is the
external `JSON.parse`, abstracted below as a parameter `jp` returning
`Option Ev` (`none` models a thrown `SyntaxError`). -/

/-- Model of JS `"...".split("\n")` as used on the stdout buffer. -/
def splitNl (l : List Char) : List (List Char) := l.splitOn '\n'

/-- Embedding of `parseStreamLine` (claude.ts): trim the line, drop it unless
it is nonempty and starts with an opening brace, then attempt a JSON parse. -/
def parseStreamLine {Ev : Type} (jp : List Char → Option Ev) (line : List Char) :
    Option Ev :=
  let trimmed := trimChars line
  if trimmed.isEmpty then none
  else if trimmed.head? ≠ some '\x7b' then none
  else jp trimmed

/-- Stream-consumer state of `runClaude`: the partial-line buffer
(`stdoutBuffer`), the accumulated event log (`events`) and the sequence of
`onEvent` callback invocations made so far (`emitted`). -/
structure StreamState (Ev : Type) where
  buffer : List Char
  events : List Ev
  emitted : List Ev
deriving DecidableEq

/-- The state of the stream consumer before any stdout data arrives. -/
def initialStreamState (Ev : Type) : StreamState Ev :=
  { buffer := [], events := [], emitted := [] }

/-- Embedding of the `child.stdout.on("data", ...)` handler of `runClaude`:
append the chunk to the buffer, split on newlines, keep the last segment as
the new buffer, and parse every completed line, appending each parsed event
to the log and forwarding it to `onEvent`. -/
def onData {Ev : Type} (jp : List Char → Option Ev) (st : StreamState Ev)
    (chunk : List Char) : StreamState Ev :=
  let lines := splitNl (st.buffer ++ chunk)
  let parsed := lines.dropLast.filterMap (parseStreamLine jp)
  { buffer := lines.getLastD [],
    events := st.events ++ parsed,
    emitted := st.emitted ++ parsed }

/-- Embedding of the buffer flush at the top of the `close` handler of
`runClaude`: if the remaining buffer is nonblank it gets one final parse
attempt. -/
def onCloseFlush {Ev : Type} (jp : List Char → Option Ev) (st : StreamState Ev) :
    StreamState Ev :=
  if (trimChars st.buffer).isEmpty then st
  else
    match parseStreamLine jp st.buffer with
    | some e => { st with events := st.events ++ [e], emitted := st.emitted ++ [e] }
    | none => st

/-- The stdout lifecycle of one `runClaude` call: the chunks arrive in order,
then the stream closes and the surviving buffer is flushed. -/
def runStream {Ev : Type} (jp : List Char → Option Ev) (chunks : List (List Char)) :
    StreamState Ev :=
  onCloseFlush jp (chunks.foldl (onData jp) (initialStreamState Ev))

/-! ### Splitting lemmas -/

theorem getLastD_irrel {α : Type _} {l : List α} (h : l ≠ []) (d d' : α) :
    l.getLastD d = l.getLastD d' := by
  cases l with
  | nil => exact absurd rfl h
  | cons a m => rw [List.getLastD_cons, List.getLastD_cons]

theorem getLastD_mem {α : Type _} : ∀ {l : List α}, l ≠ [] → ∀ d : α, l.getLastD d ∈ l := by
  intro l
  induction l with
  | nil => intro h; exact absurd rfl h
  | cons a m ih =>
    intro _ d
    cases m with
    | nil => simp [List.getLastD]
    | cons b k =>
      rw [List.getLastD_cons]
      exact List.mem_cons_of_mem _ (ih (by simp) a)

/-- Splitting an appended list: the last segment of the first part merges with
the first segment of the second part. -/
theorem splitOnP_append {α : Type _} (p : α → Bool) (a b : List α) :
    (a ++ b).splitOnP p =
      (a.splitOnP p).dropLast ++
        ((b.splitOnP p).modifyHead fun h => (a.splitOnP p).getLastD [] ++ h) := by
  induction a with
  | nil =>
    cases hsb : b.splitOnP p with
    | nil => exact absurd hsb (List.splitOnP_ne_nil _ _)
    | cons h t => simp [List.splitOnP_nil, hsb]
  | cons x a' ih =>
    rw [List.cons_append, List.splitOnP_cons, List.splitOnP_cons, ih]
    cases hsa : a'.splitOnP p with
    | nil => exact absurd hsa (List.splitOnP_ne_nil _ _)
    | cons s0 t =>
      cases hsb : b.splitOnP p with
      | nil => exact absurd hsb (List.splitOnP_ne_nil _ _)
      | cons bh bt =>
        by_cases hp : p x
        · simp only [hp, if_true]
          cases t with
          | nil => simp [List.getLastD_cons]
          | cons s1 rest => simp [List.getLastD_cons, List.dropLast_cons₂]
        · simp only [hp, if_false]
          cases t with
          | nil => simp [List.getLastD_cons]
          | cons s1 rest =>
            have hg : (s1 :: rest).getLastD s0 = (s1 :: rest).getLastD (x :: s0) :=
              getLastD_irrel (by simp) s0 (x :: s0)
            simp [List.getLastD_cons, List.dropLast_cons₂, hg]

/-- Every segment produced by `splitOnP` contains no separator. -/
theorem splitOnP_sep_not_mem {α : Type _} (p : α → Bool) :
    ∀ (l : List α), ∀ x ∈ l.splitOnP p, ∀ c ∈ x, ¬ p c := by
  intro l
  induction l with
  | nil =>
    intro x hx c hc
    simp [List.splitOnP_nil] at hx
    subst hx
    exact absurd hc (List.not_mem_nil c)
  | cons a m ih =>
    intro x hx c hc
    rw [List.splitOnP_cons] at hx
    by_cases hp : p a
    · simp only [hp, if_true, List.mem_cons] at hx
      rcases hx with rfl | hx
      · exact absurd hc (List.not_mem_nil c)
      · exact ih x hx c hc
    · simp only [hp, if_false] at hx
      cases hsm : m.splitOnP p with
      | nil => exact absurd hsm (List.splitOnP_ne_nil _ _)
      | cons h t =>
        rw [hsm] at hx
        rw [List.modifyHead_cons] at hx
        cases hx with
        | head =>
          rcases List.mem_cons.mp hc with hce | hc'
          · rw [hce]; simpa using hp
          · exact ih h (by rw [hsm]; exact List.mem_cons_self _ _) c hc'
        | tail _ hx' =>
          exact ih x (by rw [hsm]; exact List.mem_cons_of_mem _ hx') c hc

/-- The carried-over buffer never contains a newline. -/
theorem newline_not_mem_getLastD (l : List Char) :
    '\n' ∉ (splitNl l).getLastD [] := by
  intro hmem
  have h1 : (splitNl l).getLastD [] ∈ splitNl l :=
    getLastD_mem (by simpa [splitNl, List.splitOn] using List.splitOnP_ne_nil _ l) _
  have h2 := splitOnP_sep_not_mem (fun c => c == '\n') l _
    (by simpa [splitNl, List.splitOn] using h1) '\n' hmem
  simp at h2

theorem splitNl_ne_nil (l : List Char) : splitNl l ≠ [] := by
  simpa [splitNl, List.splitOn] using List.splitOnP_ne_nil (fun c => c == '\n') l

theorem splitNl_append (a b : List Char) :
    splitNl (a ++ b) =
      (splitNl a).dropLast ++ ((splitNl b).modifyHead fun h => (splitNl a).getLastD [] ++ h) := by
  simpa [splitNl, List.splitOn] using splitOnP_append (fun c => c == '\n') a b

theorem splitNl_no_newline {x : List Char} (h : '\n' ∉ x) : splitNl x = [x] := by
  simp only [splitNl, List.splitOn]
  exact List.splitOnP_eq_single _ _ fun c hc => by
    simp only [beq_iff_eq]
    intro he
    exact h (he ▸ hc)

theorem splitNl_modifyHead {x : List Char} (h : '\n' ∉ x) (b : List Char) :
    splitNl (x ++ b) = (splitNl b).modifyHead fun s => x ++ s := by
  rw [splitNl_append, splitNl_no_newline h]
  rfl

theorem getLastD_append_right {α : Type _} {ys : List α} (h : ys ≠ []) :
    ∀ (xs : List α) (d : α), (xs ++ ys).getLastD d = ys.getLastD d := by
  intro xs
  induction xs with
  | nil => intro d; rfl
  | cons x xs ih =>
    intro d
    rw [List.cons_append, List.getLastD_cons, ih x]
    exact getLastD_irrel (by simp [h]) x d

theorem dropLast_append_getLastD {α : Type _} :
    ∀ {l : List α}, l ≠ [] → ∀ d : α, l.dropLast ++ [l.getLastD d] = l := by
  intro l
  induction l with
  | nil => intro h; exact absurd rfl h
  | cons a m ih =>
    intro _ d
    cases m with
    | nil => rfl
    | cons b k =>
      rw [List.dropLast_cons₂, List.getLastD_cons, List.cons_append, ih (by simp) a]

/-- Processing two stdout chunks one after the other is the same as processing
their concatenation: the buffered splitting loses nothing at chunk borders. -/
theorem onData_append {Ev : Type} (jp : List Char → Option Ev) (st : StreamState Ev)
    (a b : List Char) : onData jp (onData jp st a) b = onData jp st (a ++ b) := by
  unfold onData
  have hb1 : '\n' ∉ (splitNl (st.buffer ++ a)).getLastD [] :=
    newline_not_mem_getLastD (st.buffer ++ a)
  have hassoc : st.buffer ++ (a ++ b) = (st.buffer ++ a) ++ b := by
    rw [List.append_assoc]
  rw [hassoc, splitNl_append (st.buffer ++ a) b, splitNl_modifyHead hb1 b]
  have hne : (splitNl b).modifyHead
      (fun s => (splitNl (st.buffer ++ a)).getLastD [] ++ s) ≠ [] := by
    cases hsb : splitNl b with
    | nil => exact absurd hsb (splitNl_ne_nil b)
    | cons h t => simp
  simp only [List.dropLast_append_of_ne_nil _ hne, List.filterMap_append,
    getLastD_append_right hne, List.append_assoc]

/-- Folding the data handler over a nonempty chunk list is the same as one
data event carrying all the bytes. -/
theorem foldl_onData {Ev : Type} (jp : List Char → Option Ev) :
    ∀ (chunks : List (List Char)) (st : StreamState Ev) (c : List Char),
      (c :: chunks).foldl (onData jp) st = onData jp st (c ++ chunks.flatten) := by
  intro chunks
  induction chunks with
  | nil => intro st c; simp [onData]
  | cons c2 cs ih =>
    intro st c
    rw [List.foldl_cons, ih (onData jp st c) c2, onData_append, List.flatten_cons]

/-- The close-handler flush appends the final parse attempt of the buffer (a
blank buffer is skipped, but a blank buffer never parses anyway). -/
theorem onCloseFlush_eq {Ev : Type} (jp : List Char → Option Ev) (st : StreamState Ev) :
    onCloseFlush jp st =
      { buffer := st.buffer,
        events := st.events ++ (parseStreamLine jp st.buffer).toList,
        emitted := st.emitted ++ (parseStreamLine jp st.buffer).toList } := by
  unfold onCloseFlush
  by_cases he : (trimChars st.buffer).isEmpty
  · have hp : parseStreamLine jp st.buffer = none := by
      unfold parseStreamLine
      simp [he]
    simp [he, hp]
  · simp only [he, if_false]
    cases hp : parseStreamLine jp st.buffer with
    | none => simp
    | some e => rfl

theorem onData_init {Ev : Type} (jp : List Char → Option Ev) (l : List Char) :
    onData jp (initialStreamState Ev) l =
      { buffer := (splitNl l).getLastD [],
        events := (splitNl l).dropLast.filterMap (parseStreamLine jp),
        emitted := (splitNl l).dropLast.filterMap (parseStreamLine jp) } := by
  unfold onData initialStreamState
  simp only [List.nil_append]

/-- The full stream run parses exactly the newline-separated segments of the
concatenated bytes, in order, and the event log coincides with the sequence of
`onEvent` invocations. -/
theorem runStream_eq {Ev : Type} (jp : List Char → Option Ev) (chunks : List (List Char)) :
    (runStream jp chunks).events = (splitNl chunks.flatten).filterMap (parseStreamLine jp)
    ∧ (runStream jp chunks).emitted = (runStream jp chunks).events := by
  cases chunks with
  | nil => exact ⟨rfl, rfl⟩
  | cons c cs =>
    rw [runStream, foldl_onData, ← List.flatten_cons, onData_init, onCloseFlush_eq]
    refine ⟨?_, rfl⟩
    conv_rhs =>
      rw [← dropLast_append_getLastD (splitNl_ne_nil ((c :: cs).flatten)) ([] : List Char)]
    rw [List.filterMap_append]
    congr 1

theorem filterMap_eq_of_forall₂ {Ev : Type} (jp : List Char → Option Ev) :
    ∀ {lines : List (List Char)} {evs : List Ev},
      List.Forall₂ (fun l e => parseStreamLine jp l = some e) lines evs →
      lines.filterMap (parseStreamLine jp) = evs := by
  intro lines evs h
  induction h with
  | nil => rfl
  | cons hle _ ih => simp [List.filterMap_cons, hle, ih]

/-- Claim C2: for every finite sequence of newline-delimited lines written by
the subprocess and every partition of those bytes into arbitrary stdout chunks
(including splits mid-line and a final line with no trailing newline), the
runner's accumulated event log equals the per-line parse results in order —
malformed or non-JSON lines are silently dropped, and the surviving partial
line at stream end gets one final parse attempt — the `onEvent` invocation
sequence coincides with the log, and in particular when the lines parse to
events `E1..En` the log is exactly `E1..En`: no duplicates, no drops. -/
theorem c2_stream_event_ordering {Ev : Type} (jp : List Char → Option Ev)
    (lines : List (List Char)) (chunks : List (List Char))
    (hnl : ∀ l ∈ lines, '\n' ∉ l)
    (hbytes : chunks.flatten = List.intercalate ['\n'] lines) :
    (runStream jp chunks).events = lines.filterMap (parseStreamLine jp)
    ∧ (runStream jp chunks).emitted = (runStream jp chunks).events
    ∧ ∀ evs : List Ev,
        List.Forall₂ (fun l e => parseStreamLine jp l = some e) lines evs →
        (runStream jp chunks).events = evs := by
  obtain ⟨h1, h2⟩ := runStream_eq jp chunks
  have hsplit : (splitNl chunks.flatten).filterMap (parseStreamLine jp)
      = lines.filterMap (parseStreamLine jp) := by
    cases hls : lines with
    | nil =>
      rw [hls] at hbytes
      rw [hbytes]
      rfl
    | cons l0 ls =>
      rw [hls] at hbytes hnl
      rw [hbytes, show splitNl (List.intercalate ['\n'] (l0 :: ls)) = l0 :: ls from
        List.splitOn_intercalate (l0 :: ls) '\n' hnl (List.cons_ne_nil _ _)]
  refine ⟨h1.trans hsplit, h2, fun evs hf => ?_⟩
  rw [h1, hsplit]
  exact filterMap_eq_of_forall₂ jp hf

/-- Concrete JSON-parser stand-in used by the witness of C2. -/
def jpW : List Char → Option Nat := fun l =>
  if l = ['\x7b', '1', '\x7d'] then some 1
  else if l = ['\x7b', '2', '\x7d'] then some 2
  else none

/-- The lines of the C2 witness: two protocol events around one noise line. -/
def linesW : List (List Char) :=
  [['\x7b', '1', '\x7d'], ['n', 'o', 'i', 's', 'e'], ['\x7b', '2', '\x7d']]

/-- A chunk partition of the C2 witness bytes with splits mid-line, an empty
chunk, and no trailing newline after the final line. -/
def chunksW : List (List Char) :=
  [['\x7b', '1', '\x7d', '\n', 'n', 'o'], [], ['i', 's', 'e', '\n', '\x7b'], ['2', '\x7d']]

theorem c2_stream_event_ordering_witness :
    (∀ l ∈ linesW, '\n' ∉ l)
    ∧ chunksW.flatten = List.intercalate ['\n'] linesW
    ∧ (runStream jpW chunksW).events = linesW.filterMap (parseStreamLine jpW) := by
  refine ⟨by decide, by decide, ?_⟩
  exact (c2_stream_event_ordering jpW linesW chunksW (by decide) (by decide)).1

/-! ## Session continuity store (session.ts)

`SessionStore` persists a flat JSON object mapping `String(userId)` to a
session id, and keeps an in-memory set `freshSessions` of keys whose current
id has not yet been confirmed by a successful turn.  The external `uuid`
library is modelled from its documented behaviour: `v5` is a deterministic
function of the name (the namespace being the fixed constant of session.ts),
`v4` draws from a randomness source, modelled as an explicit counter
`rngState` indexing a stream of fresh ids. -/

/-- Model of the external `uuidv5(name, NAMESPACE)`: deterministic in the
name. -/
def uuidv5 (name : String) : String := "uuid5-" ++ name

/-- Model of the external `uuidv4()`: the `n`-th value of the process's
randomness source. -/
def uuidv4 (n : Nat) : String := "uuid4-" ++ toString n

/-- JS object read `obj[key]` on the flat session mapping. -/
def lookupKey : List (String × String) → String → Option String
  | [], _ => none
  | (k, v) :: rest, key => if k = key then some v else lookupKey rest key

/-- JS object write `obj[key] = value` (observationally via `lookupKey`). -/
def setKey (l : List (String × String)) (key v : String) : List (String × String) :=
  (key, v) :: l.filter fun p => decide (p.1 ≠ key)

/-- JS `Set.add`. -/
def setInsert (l : List String) (k : String) : List String :=
  if l.contains k then l else k :: l

/-- JS `Set.delete`. -/
def setDelete (l : List String) (k : String) : List String :=
  l.filter fun x => decide (x ≠ k)

/-- JS truthiness of an optional string: `undefined` and `""` are falsy. -/
def jsTruthy (o : Option String) : Bool := decide (o.getD "" ≠ "")

/-- State of `SessionStore` (session.ts): the persisted mapping, the
in-memory fresh-session set, and the modelled randomness counter. -/
structure SessionStore where
  sessions : List (String × String)
  freshSessions : List String
  rngState : Nat
deriving DecidableEq

/-- A store with no persisted sessions (fresh deployment). -/
def emptySessionStore : SessionStore :=
  { sessions := [], freshSessions := [], rngState := 0 }

/-- Embedding of `SessionStore.getSession`: return an existing (truthy)
mapping with `isNew` given by membership in `freshSessions`; otherwise derive
the first session id deterministically from the user key, persist it, and
report `isNew = true`. -/
def getSession (st : SessionStore) (userId : Nat) : (String × Bool) × SessionStore :=
  let key := toString userId
  let existing := lookupKey st.sessions key
  if jsTruthy existing then
    ((existing.getD "", st.freshSessions.contains key), st)
  else
    let sessionId := uuidv5 key
    ((sessionId, true), { st with sessions := setKey st.sessions key sessionId })

/-- Embedding of `SessionStore.confirmSession`: drop the fresh marker. -/
def confirmSession (st : SessionStore) (userId : Nat) : SessionStore :=
  { st with freshSessions := setDelete st.freshSessions (toString userId) }

/-- Embedding of `SessionStore.resetSession`: assign a fresh random id,
mark it fresh, persist. -/
def resetSession (st : SessionStore) (userId : Nat) : String × SessionStore :=
  let key := toString userId
  let sessionId := uuidv4 st.rngState
  (sessionId,
   { sessions := setKey st.sessions key sessionId,
     freshSessions := setInsert st.freshSessions key,
     rngState := st.rngState + 1 })

/-- Embedding of `SessionStore.refreshSession`, an alias of `resetSession`
in session.ts. -/
def refreshSession (st : SessionStore) (userId : Nat) : String × SessionStore :=
  resetSession st userId

theorem uuidv5_ne_empty (s : String) : uuidv5 s ≠ "" := by
  intro h
  have hlen := congrArg String.length h
  rw [uuidv5, String.length_append] at hlen
  rw [show ("uuid5-" : String).length = 6 from rfl, show ("" : String).length = 0 from rfl] at hlen
  omega

theorem lookupKey_setKey_self (l : List (String × String)) (k v : String) :
    lookupKey (setKey l k v) k = some v := by
  simp [setKey, lookupKey]

/-- Claim C7: `getSession` is deterministic and idempotent until a reset —
two calls with no reset in between return the same session id, and the id
allocated by the first call when no mapping exists is the deterministic
`uuidv5` image of the user's stable identity. -/
theorem c7_get_session_idempotent (st : SessionStore) (userId : Nat) :
    (getSession ((getSession st userId).2) userId).1.1 = (getSession st userId).1.1
    ∧ (lookupKey st.sessions (toString userId) = none →
        (getSession st userId).1.1 = uuidv5 (toString userId)) := by
  constructor
  · by_cases h : jsTruthy (lookupKey st.sessions (toString userId))
    · simp [getSession, h]
    · have hlook : lookupKey
          (setKey st.sessions (toString userId) (uuidv5 (toString userId)))
          (toString userId) = some (uuidv5 (toString userId)) :=
        lookupKey_setKey_self _ _ _
      have ht : jsTruthy (some (uuidv5 (toString userId))) = true := by
        simp [jsTruthy, uuidv5_ne_empty]
      have h1 : getSession st userId
          = ((uuidv5 (toString userId), true),
             { st with
                sessions := setKey st.sessions (toString userId) (uuidv5 (toString userId)) }) := by
        simp [getSession, h]
      rw [h1]
      simp [getSession, hlook, ht]
  · intro hnone
    simp [getSession, hnone, jsTruthy]

theorem c7_get_session_idempotent_witness :
    lookupKey emptySessionStore.sessions (toString 3) = none
    ∧ (getSession ((getSession emptySessionStore 3).2) 3).1.1
        = (getSession emptySessionStore 3).1.1
    ∧ (getSession emptySessionStore 3).1.1 = uuidv5 (toString 3) :=
  ⟨by decide, (c7_get_session_idempotent emptySessionStore 3).1,
    (c7_get_session_idempotent emptySessionStore 3).2 (by decide)⟩

/-- Counterexample to claim C8 as stated: right after a `resetSession` the
mapping for the user is present in the store, yet `getSession` returns the
existing id with `isNew = true` (the session is still fresh and unconfirmed),
not `isNew = false`. -/
theorem c8_counterexample_reset_then_get :
    lookupKey ((resetSession emptySessionStore 5).2).sessions (toString 5) ≠ none
    ∧ (getSession ((resetSession emptySessionStore 5).2) 5).1.2 = true := by
  decide

/-- Claim C8 (amended): when a usable mapping for the user exists,
`getSession` returns that mapped id without touching the store, and `isNew`
is true exactly when the session is still marked fresh (allocated by a reset
and not yet confirmed) rather than always false; only when no mapping exists
does it allocate the deterministically derived id, persist it, and return it
with `isNew = true`. -/
theorem c8_get_or_create_amended (st : SessionStore) (userId : Nat) :
    (∀ s, lookupKey st.sessions (toString userId) = some s → s ≠ "" →
      getSession st userId
        = ((s, st.freshSessions.contains (toString userId)), st))
    ∧ (lookupKey st.sessions (toString userId) = none →
      getSession st userId
        = ((uuidv5 (toString userId), true),
           { st with
              sessions := setKey st.sessions (toString userId) (uuidv5 (toString userId)) })) := by
  constructor
  · intro s hs hne
    simp [getSession, hs, jsTruthy, hne]
  · intro hnone
    simp [getSession, hnone, jsTruthy]

theorem c8_get_or_create_amended_witness :
    lookupKey [("7", "abc")] (toString 7) = some "abc"
    ∧ getSession ⟨[("7", "abc")], [], 0⟩ 7 = (("abc", false), ⟨[("7", "abc")], [], 0⟩) :=
  ⟨by decide,
    (c8_get_or_create_amended ⟨[("7", "abc")], [], 0⟩ 7).1 "abc" (by decide) (by decide)⟩

/-! ## Stream-json events and turn results (types.ts, claude.ts) -/

/-- JS `a || b` for an optional string `a` (absent and empty are falsy). -/
def jsOr (a : Option String) (b : String) : String :=
  match a with
  | some s => if s = "" then b else s
  | none => b

/-- A content block of an assistant message (types.ts). -/
structure ContentBlock where
  type : String
  name : Option String
  text : Option String
deriving DecidableEq

/-- The message payload of an assistant event (types.ts). -/
structure EventMessage where
  content : Option (List ContentBlock)
deriving DecidableEq

/-- A parsed stream-json event (types.ts `StreamJsonEvent`).  The cost metric
is modelled as a rational. -/
structure StreamJsonEvent where
  type : String
  subtype : Option String
  session_id : Option String
  result : Option String
  total_cost_usd : Option Rat
  message : Option EventMessage
deriving DecidableEq

/-- The terminal result of one turn (types.ts `ClaudeResult`). -/
structure ClaudeResult where
  success : Bool
  output : String
  error : Option String
  sessionId : Option String
  costUsd : Option Rat
  durationMs : Nat
deriving DecidableEq

/-- The truthy text fragments of assistant events, in emission order
(the fallback loop of `extractResult` in claude.ts). -/
def assistantTexts (events : List StreamJsonEvent) : List String :=
  events.flatMap fun e =>
    if e.type = "assistant" then
      match e.message with
      | some m =>
        match m.content with
        | some blocks =>
          blocks.filterMap fun b =>
            match b.text with
            | some t => if b.type = "text" ∧ t ≠ "" then some t else none
            | none => none
        | none => []
      | none => []
    else []

/-- Embedding of `extractResult` (claude.ts): prefer the latest terminal
"result" event; otherwise join the assistant text fragments with newlines. -/
def extractResult (events : List StreamJsonEvent) : String × Option Rat :=
  match events.reverse.find? (fun e => e.type == "result") with
  | some e => (jsOr e.result "", e.total_cost_usd)
  | none => (String.intercalate "\n" (assistantTexts events), none)

/-- JS template interpolation of a possibly-null exit code. -/
def codeText : Option Int → String
  | some n => toString n
  | none => "null"

/-- The stderr signature that the `close` handler of claude.ts treats as a
session-loss marker. -/
def sessionLossMarker (stderr : String) : Bool :=
  strIncludes stderr "session" || strIncludes stderr "not found"
    || strIncludes stderr "ENOENT"

/-- Input of the `close` handler of `runClaude` at classification time: the
exit code (`none` models a `null` code), the timeout flag `killed`, the
concatenated stderr, the final event log, the session id detected from an
init event, the session context obtained from `getSession` at spawn time,
the configured timeout and the elapsed wall-clock time. -/
structure CloseInput where
  code : Option Int
  killed : Bool
  stderr : String
  events : List StreamJsonEvent
  detectedSessionId : Option String
  sessionId : String
  isNew : Bool
  timeoutSecs : Nat
  durationMs : Nat
deriving DecidableEq

/-- Embedding of the classification part of the `close` handler of
`runClaude` (claude.ts): timeout, session loss (resetting the store entry),
generic tool failure carrying a bounded stderr tail, or success (confirming a
provisional session). -/
def closeHandler (inp : CloseInput) (store : SessionStore) (userId : Nat) :
    ClaudeResult × SessionStore :=
  if inp.killed then
    ({ success := false, output := "",
       error := some ("Claude took too long (>" ++ toString (inp.timeoutSecs / 60)
         ++ "min). Try a simpler request or send again."),
       sessionId := some (jsOr inp.detectedSessionId inp.sessionId),
       costUsd := none, durationMs := inp.durationMs }, store)
  else if inp.code ≠ some 0 ∧ inp.isNew = false ∧ sessionLossMarker inp.stderr then
    ({ success := false, output := "",
       error := some ("Conversation couldn\x27t be restored (session expired). "
         ++ "Send your message again to start fresh."),
       sessionId := some (jsOr inp.detectedSessionId inp.sessionId),
       costUsd := none, durationMs := inp.durationMs },
     (refreshSession store userId).2)
  else if inp.code ≠ some 0 then
    ({ success := false, output := "",
       error := some (jsOr (some (strTakeRight inp.stderr 300))
         ("Process exited with code " ++ codeText inp.code)),
       sessionId := some (jsOr inp.detectedSessionId inp.sessionId),
       costUsd := none, durationMs := inp.durationMs }, store)
  else
    let res := extractResult inp.events
    ({ success := true, output := jsOr (some res.1) "",
       error := none,
       sessionId := some (jsOr inp.detectedSessionId inp.sessionId),
       costUsd := res.2, durationMs := inp.durationMs },
     if inp.isNew then confirmSession store userId else store)

theorem jsOr_some_empty (s : String) : jsOr (some s) "" = s := by
  by_cases h : s = "" <;> simp [jsOr, h]

theorem uuidv4_ne_empty (n : Nat) : uuidv4 n ≠ "" := by
  intro h
  have hlen := congrArg String.length h
  rw [uuidv4, String.length_append] at hlen
  rw [show ("uuid4-" : String).length = 6 from rfl, show ("" : String).length = 0 from rfl] at hlen
  omega

theorem setInsert_contains (l : List String) (k : String) :
    (setInsert l k).contains k = true := by
  unfold setInsert
  by_cases h : l.contains k
  · rw [if_pos h]; exact h
  · rw [if_neg h]; simp

theorem setInsert_mem (l : List String) (k : String) : k ∈ setInsert l k := by
  unfold setInsert
  by_cases h : l.contains k
  · rw [if_pos h]; simpa using h
  · rw [if_neg h]; exact List.mem_cons_self _ _

/-- Claim C4: when the subprocess exits non-zero, the prior session was not
new, and stderr carries the recognised session-loss marker, the close handler
resets the store entry for that user — the next `getSession` hands out the
fresh random id and marks it new — and resolves (not throws) to a failure
whose message invites the user to resend. -/
theorem c4_session_loss_recovery (inp : CloseInput) (store : SessionStore)
    (userId : Nat) (hk : inp.killed = false) (hc : inp.code ≠ some 0)
    (hn : inp.isNew = false) (hm : sessionLossMarker inp.stderr = true) :
    (closeHandler inp store userId).1.success = false
    ∧ (closeHandler inp store userId).1.error
        = some ("Conversation couldn\x27t be restored (session expired). "
            ++ "Send your message again to start fresh.")
    ∧ strIncludes ((closeHandler inp store userId).1.error.getD "")
        "Send your message again" = true
    ∧ (closeHandler inp store userId).2 = (resetSession store userId).2
    ∧ (getSession (closeHandler inp store userId).2 userId).1
        = (uuidv4 store.rngState, true) := by
  have h1 : closeHandler inp store userId
      = ({ success := false, output := "",
           error := some ("Conversation couldn\x27t be restored (session expired). "
             ++ "Send your message again to start fresh."),
           sessionId := some (jsOr inp.detectedSessionId inp.sessionId),
           costUsd := none, durationMs := inp.durationMs },
         (refreshSession store userId).2) := by
    unfold closeHandler
    rw [if_neg (by simp [hk]), if_pos ⟨hc, hn, hm⟩]
  rw [h1]
  have hlook := lookupKey_setKey_self store.sessions (toString userId) (uuidv4 store.rngState)
  have ht : jsTruthy (some (uuidv4 store.rngState)) = true := by
    simp [jsTruthy, uuidv4_ne_empty]
  refine ⟨rfl, rfl, ?_, rfl, ?_⟩
  · show strIncludes ("Conversation couldn\x27t be restored (session expired). "
        ++ "Send your message again to start fresh.") "Send your message again" = true
    decide
  · simp [refreshSession, resetSession, getSession, hlook, ht, setInsert_mem]

/-- Concrete close-handler input for the C4 witness. -/
def inpC4 : CloseInput :=
  { code := some 1, killed := false,
    stderr := "No conversation found with session ID abc", events := [],
    detectedSessionId := none, sessionId := "sid", isNew := false,
    timeoutSecs := 300, durationMs := 42 }

theorem c4_session_loss_recovery_witness :
    sessionLossMarker inpC4.stderr = true
    ∧ (closeHandler inpC4 emptySessionStore 9).1.success = false
    ∧ (closeHandler inpC4 emptySessionStore 9).2 = (resetSession emptySessionStore 9).2
    ∧ (getSession (closeHandler inpC4 emptySessionStore 9).2 9).1 = (uuidv4 0, true) := by
  have h := c4_session_loss_recovery inpC4 emptySessionStore 9 rfl (by decide) rfl (by decide)
  exact ⟨by decide, h.1, h.2.2.2.1, h.2.2.2.2⟩

/-- Claim C6: when the subprocess exits with code 0 (and no timeout fired),
the turn succeeds, its output is the extraction from the accumulated event
log — the latest terminal result event's text when one is present, else the
newline-joined assistant text fragments in emission order — and a provisional
(new) session is confirmed durable in the store. -/
theorem c6_success_confirms_and_extracts (inp : CloseInput) (store : SessionStore)
    (userId : Nat) (hk : inp.killed = false) (hc : inp.code = some 0) :
    (closeHandler inp store userId).1.success = true
    ∧ (closeHandler inp store userId).1.output = (extractResult inp.events).1
    ∧ (closeHandler inp store userId).2
        = (if inp.isNew then confirmSession store userId else store)
    ∧ (∀ pre r post, inp.events = pre ++ r :: post → r.type = "result" →
        (∀ e ∈ post, e.type ≠ "result") →
        (extractResult inp.events).1 = jsOr r.result "")
    ∧ ((∀ e ∈ inp.events, e.type ≠ "result") →
        (extractResult inp.events).1
          = String.intercalate "\n" (assistantTexts inp.events)) := by
  have h1 : closeHandler inp store userId
      = ({ success := true, output := jsOr (some (extractResult inp.events).1) "",
           error := none,
           sessionId := some (jsOr inp.detectedSessionId inp.sessionId),
           costUsd := (extractResult inp.events).2, durationMs := inp.durationMs },
         if inp.isNew then confirmSession store userId else store) := by
    unfold closeHandler
    rw [if_neg (by simp [hk]), if_neg (by simp [hc]), if_neg (by simp [hc])]
  rw [h1]
  refine ⟨rfl, jsOr_some_empty _, rfl, ?_, ?_⟩
  · intro pre r post hev hr hpost
    have hpr : (fun e => e.type == "result") r = true := by simp [hr]
    have hnone : post.reverse.find? (fun e => e.type == "result") = none := by
      rw [List.find?_eq_none]
      intro x hx
      rw [List.mem_reverse] at hx
      simp [hpost x hx]
    simp [extractResult, hev, List.find?_append, hnone, hpr]
  · intro hall
    have hnone : inp.events.reverse.find? (fun e => e.type == "result") = none := by
      rw [List.find?_eq_none]
      intro x hx
      rw [List.mem_reverse] at hx
      simp [hall x hx]
    simp [extractResult, hnone]

/-- The terminal result event of the C6 witness (the concrete scenario of the
specification). -/
def resultEventW : StreamJsonEvent :=
  { type := "result", subtype := none, session_id := none,
    result := some "hi there", total_cost_usd := none, message := none }

/-- Concrete close-handler input for the C6 witness. -/
def inpC6 : CloseInput :=
  { code := some 0, killed := false, stderr := "", events := [resultEventW],
    detectedSessionId := some "S1", sessionId := "S1", isNew := true,
    timeoutSecs := 300, durationMs := 1000 }

theorem c6_success_confirms_and_extracts_witness :
    (closeHandler inpC6 emptySessionStore 1).1.success = true
    ∧ (closeHandler inpC6 emptySessionStore 1).1.output = (extractResult inpC6.events).1
    ∧ (extractResult inpC6.events).1 = "hi there"
    ∧ (closeHandler inpC6 emptySessionStore 1).2 = confirmSession emptySessionStore 1 := by
  have h := c6_success_confirms_and_extracts inpC6 emptySessionStore 1 rfl rfl
  refine ⟨h.1, h.2.1, ?_, ?_⟩
  · have he := h.2.2.2.1 [] resultEventW [] rfl rfl
      (by intro e he; exact absurd he (List.not_mem_nil e))
    rw [he]
    decide
  · exact h.2.2.1

/-! ## Timeout escalation (claude.ts timer, Node ChildProcess semantics)

The timeout timer of `runClaude` fires at `config.timeout * 1000` ms unless
the process closed first (the `close` handler clears it): it sets the local
`killed` flag, calls `child.kill("SIGTERM")`, and schedules a second callback
5000 ms later that calls `child.kill("SIGKILL")` only `if (!child.killed)`.
Node's documented `ChildProcess` semantics: `kill()` delivers the signal iff
the process has not already exited, and a successful delivery sets the
`killed` property; `killed` records only that a signal was successfully sent,
never that the process terminated. -/

/-- Signals used by the termination escalation. -/
inductive Sig where
  | sigterm
  | sigkill
deriving DecidableEq

/-- A Node `ChildProcess` as seen by the timer callbacks: whether the OS
process still runs, and the `killed` property. -/
structure ChildState where
  alive : Bool
  killedProp : Bool
deriving DecidableEq

/-- Model of `child.kill(sig)` per the Node documentation: delivery succeeds
iff the process is alive, a successful delivery sets `killed`; SIGKILL always
terminates, SIGTERM terminates only a process that does not ignore it. -/
def childKill (ignoresSigterm : Bool) (c : ChildState) (s : Sig) :
    ChildState × Option Sig :=
  if c.alive then
    ({ alive := (match s with
        | .sigterm => ignoresSigterm
        | .sigkill => false),
       killedProp := true }, some s)
  else (c, none)

/-- Embedding of the two timer callbacks of `runClaude` for a process still
running at the deadline: the main timer delivers SIGTERM; the grace timer,
5 s later, delivers SIGKILL only when `child.killed` is still false.  Returns
the final child state and the list of signals actually delivered. -/
def timeoutEscalation (ignoresSigterm : Bool) (c : ChildState) :
    ChildState × List Sig :=
  let step1 := childKill ignoresSigterm c .sigterm
  let step2 :=
    if step1.1.killedProp = false then childKill ignoresSigterm step1.1 .sigkill
    else (step1.1, none)
  (step2.1, step1.2.toList ++ step2.2.toList)

/-- Concrete close-handler input for the C3 timeout evaluation. -/
def inpC3 : CloseInput :=
  { code := none, killed := true, stderr := "", events := [],
    detectedSessionId := none, sessionId := "sid", isNew := false,
    timeoutSecs := 300, durationMs := 305000 }

/-- Claim C3 (code bug): a subprocess still alive at the 300 s deadline that
ignores SIGTERM receives only the graceful SIGTERM and never the promised
force-kill — Node sets `child.killed` the moment the SIGTERM is delivered, so
the grace timer's `!child.killed` guard is always false — and the process
stays alive past the 5 s grace window.  The resolution half of the claim does
hold: the `killed` flag makes the run resolve to `success = false` with an
error mentioning the configured timeout (300 s rendered as 5 min). -/
theorem c3_timeout_escalation_bug :
    (timeoutEscalation true { alive := true, killedProp := false }).2 = [Sig.sigterm]
    ∧ (timeoutEscalation true { alive := true, killedProp := false }).1.alive = true
    ∧ (closeHandler inpC3 emptySessionStore 4).1.success = false
    ∧ (closeHandler inpC3 emptySessionStore 4).1.error
        = some "Claude took too long (>5min). Try a simpler request or send again."
    ∧ strIncludes ((closeHandler inpC3 emptySessionStore 4).1.error.getD "") "5min"
        = true := by
  refine ⟨rfl, rfl, rfl, by decide, by decide⟩

/-! ## User-facing error sanitisation (bot.ts `sanitizeErrorForUser`) -/

/-- A regex word character `[A-Za-z0-9_]`. -/
def isWordCh (c : Char) : Bool :=
  ('A' ≤ c && c ≤ 'Z') || ('a' ≤ c && c ≤ 'z') || ('0' ≤ c && c ≤ '9') || c = '_'

/-- A regex digit `\d`. -/
def isDigitCh (c : Char) : Bool := '0' ≤ c && c ≤ '9'

/-- A character of the token tail class `[A-Za-z0-9_-]`. -/
def isTokCh (c : Char) : Bool := isWordCh c || c = '-'

/-- Attempt the pattern `\d{6,}:[A-Za-z0-9_-]{20,}\b` at the head of `l` (the
caller has already established the left word boundary): greedy digits, a
colon, then a greedy tail run backtracked over trailing dashes until the
match ends in a word character (the trailing `\b`).  Returns the consumed
prefix and the rest of the input. -/
def matchToken (l : List Char) : Option (List Char × List Char) :=
  let ds := l.takeWhile isDigitCh
  if ds.length < 6 then none
  else
    match l.drop ds.length with
    | [] => none
    | c :: rest2 =>
      if c = ':' then
        let ws := rest2.takeWhile isTokCh
        let ws2 := (ws.reverse.dropWhile fun ch => decide (ch = '-')).reverse
        if ws2.length < 20 then none
        else some (ds ++ c :: ws2, rest2.drop ws2.length)
      else none

/-- One left-to-right pass of the JS
`replace(/\b\d{6,}:[A-Za-z0-9_-]{20,}\b/g, "<TELEGRAM_TOKEN_REDACTED>")`.
`prevW` records whether the previous character was a word character (the left
`\b`); the fuel, initially the input length, only bounds the recursion. -/
def redactAux : Nat → Bool → List Char → List Char
  | 0, _, l => l
  | _ + 1, _, [] => []
  | fuel + 1, prevW, c :: rest =>
    if prevW = false ∧ isDigitCh c then
      match matchToken (c :: rest) with
      | some (_, rest2) => "<TELEGRAM_TOKEN_REDACTED>".data ++ redactAux fuel true rest2
      | none => c :: redactAux fuel (isWordCh c) rest
    else c :: redactAux fuel (isWordCh c) rest

/-- The token-redaction `replace` of `sanitizeErrorForUser`. -/
def redactTokens (l : List Char) : List Char := redactAux l.length false l

/-- Model of `text.replace(/\r\n/g, "\n")`. -/
def normalizeCrlf : List Char → List Char
  | [] => []
  | '\r' :: '\n' :: rest => '\n' :: normalizeCrlf rest
  | c :: rest => c :: normalizeCrlf rest

/-- The JS test `/^\s*at\s+/` on a raw line (a stack-frame noise line). -/
def isStackLine (l : List Char) : Bool :=
  match l.dropWhile jsWS with
  | 'a' :: 't' :: c :: _ => jsWS c
  | _ => false

/-- The JS test `/^\s*Node\.js v\d+/` on a raw line. -/
def isNodeVersionLine (l : List Char) : Bool :=
  match l.dropWhile jsWS with
  | 'N' :: 'o' :: 'd' :: 'e' :: '.' :: 'j' :: 's' :: ' ' :: 'v' :: c :: _ => isDigitCh c
  | _ => false

/-- The kept-lines loop of `sanitizeErrorForUser`: trimmed nonblank lines
that are neither stack frames nor Node version banners, stopping once two
lines are kept. -/
def keptLines (lines : List (List Char)) : List (List Char) :=
  (lines.filterMap fun rawLine =>
    let line := trimChars rawLine
    if line.isEmpty then none
    else if isStackLine rawLine then none
    else if isNodeVersionLine rawLine then none
    else some line).take 2

/-- JS `s.split(sep)` for a nonempty separator, on character lists; the fuel,
initially the input length, only bounds the recursion. -/
def splitOnListAux (sep : List Char) : Nat → List Char → List (List Char)
  | _, [] => [[]]
  | 0, l => [l]
  | fuel + 1, c :: rest =>
    if (c :: rest).take sep.length = sep then
      [] :: splitOnListAux sep fuel ((c :: rest).drop sep.length)
    else
      match splitOnListAux sep fuel rest with
      | [] => [[c]]
      | h :: t => (c :: h) :: t

/-- Model of JS `out.split(workspace).join("<WORKSPACE>")`. -/
def replaceWorkspace (out workspace : List Char) : List Char :=
  List.intercalate "<WORKSPACE>".data (splitOnListAux workspace out.length out)

/-- Embedding of `sanitizeErrorForUser` (bot.ts): normalise CRLF and trim;
keep at most two informative lines (dropping stack frames and Node version
banners), falling back to the trimmed first line; redact Telegram-bot-token
shaped substrings; replace every occurrence of the workspace path; truncate
to `maxLen`. -/
def sanitizeErrorForUser (text workspace : String) (maxLen : Nat) : String :=
  let normalized := trimChars (normalizeCrlf text.data)
  if normalized.isEmpty then ""
  else
    let lines := splitNl normalized
    let kept := keptLines lines
    let out0 :=
      if kept.length > 0 then List.intercalate ['\n'] kept
      else trimChars (lines.headD [])
    let out1 := redactTokens out0
    let out2 :=
      if workspace.data.isEmpty then out1
      else replaceWorkspace out1 workspace.data
    ⟨out2.take maxLen⟩

theorem redactAux_nil (f : Nat) (b : Bool) : redactAux f b [] = [] := by
  cases f <;> rfl

theorem matchToken_token (ds ws : List Char) (hd6 : 6 ≤ ds.length)
    (hdall : ∀ c ∈ ds, isDigitCh c) (hw20 : 20 ≤ ws.length)
    (hwall : ∀ c ∈ ws, isWordCh c) :
    matchToken (ds ++ ':' :: ws) = some (ds ++ ':' :: ws, []) := by
  have htw : (ds ++ ':' :: ws).takeWhile isDigitCh = ds := by
    rw [List.takeWhile_append_of_pos hdall, List.takeWhile_cons_of_neg (by decide)]
    simp
  have hd6' : ¬(ds.length < 6) := by omega
  have hwsall : ∀ c ∈ ws, isTokCh c := fun c hc => by simp [isTokCh, hwall c hc]
  have htw2 : ws.takeWhile isTokCh = ws := List.takeWhile_eq_self_iff.mpr hwsall
  have hwne : ws ≠ [] := by
    intro h
    rw [h] at hw20
    simp at hw20
  have hrev : ∃ r rs, ws.reverse = r :: rs := by
    cases hr : ws.reverse with
    | nil =>
      exact absurd (by simpa using congrArg List.reverse hr) hwne
    | cons r rs => exact ⟨r, rs, rfl⟩
  obtain ⟨r, rs, hr⟩ := hrev
  have hrmem : r ∈ ws := by
    have hm : r ∈ ws.reverse := by
      rw [hr]
      exact List.mem_cons_self _ _
    simpa [List.mem_reverse] using hm
  have hrw : isWordCh r := hwall r hrmem
  have hrd : ¬((fun ch => decide (ch = '-')) r = true) := by
    simp only [decide_eq_true_eq]
    intro he
    rw [he] at hrw
    exact absurd hrw (by decide)
  have hws2 : (ws.reverse.dropWhile fun ch => decide (ch = '-')).reverse = ws := by
    rw [hr]
    rw [show List.dropWhile (fun ch => decide (ch = '-')) (r :: rs) = r :: rs from by
      rw [List.dropWhile_cons, if_neg hrd]]
    rw [← hr, List.reverse_reverse]
  have hw20' : ¬(ws.length < 20) := by omega
  simp only [matchToken, htw, hd6', if_false, List.drop_left, htw2, hws2, hw20',
    List.drop_length, if_pos rfl, if_true]

theorem redactTokens_token (ds ws : List Char) (hd6 : 6 ≤ ds.length)
    (hdall : ∀ c ∈ ds, isDigitCh c) (hw20 : 20 ≤ ws.length)
    (hwall : ∀ c ∈ ws, isWordCh c) :
    redactTokens (ds ++ ':' :: ws) = "<TELEGRAM_TOKEN_REDACTED>".data := by
  have hmt := matchToken_token ds ws hd6 hdall hw20 hwall
  cases ds with
  | nil => simp at hd6
  | cons d ds' =>
    have hdd : isDigitCh d := hdall d (List.mem_cons_self _ _)
    show redactAux ((d :: ds') ++ ':' :: ws).length false ((d :: ds') ++ ':' :: ws) = _
    rw [show (d :: ds') ++ ':' :: ws = d :: (ds' ++ ':' :: ws) from rfl]
    rw [show (d :: (ds' ++ ':' :: ws)).length = (ds' ++ ':' :: ws).length + 1 from rfl]
    simp only [redactAux]
    rw [if_pos (show True ∧ isDigitCh d = true from ⟨trivial, hdd⟩)]
    have hmt2 : matchToken (d :: (ds' ++ ':' :: ws))
        = some ((d :: ds') ++ ':' :: ws, []) := hmt
    rw [hmt2]
    show "<TELEGRAM_TOKEN_REDACTED>".data ++ redactAux (ds' ++ ':' :: ws).length true []
        = "<TELEGRAM_TOKEN_REDACTED>".data
    rw [redactAux_nil, List.append_nil]

theorem strTakeRight_ne_empty {s : String} (h : s ≠ "") {n : Nat} (hn : 0 < n) :
    strTakeRight s n ≠ "" := by
  intro he
  have hd : (s.data.reverse.take n).reverse = [] := congrArg String.data he
  rw [List.reverse_eq_nil_iff, List.take_eq_nil_iff] at hd
  rcases hd with h0 | hrev
  · omega
  · rw [List.reverse_eq_nil_iff] at hrev
    apply h
    apply String.ext
    rw [hrev]

theorem strTakeRight_length_le (s : String) (n : Nat) :
    (strTakeRight s n).length ≤ n := by
  show ((s.data.reverse.take n).reverse).length ≤ n
  rw [List.length_reverse, List.length_take]
  exact Nat.min_le_left _ _

theorem jsOr_some_of_ne {s : String} (h : s ≠ "") (b : String) : jsOr (some s) b = s := by
  simp [jsOr, h]

/-- Counterexample to claim C9 as stated: a local filesystem path outside the
configured workspace survives sanitisation verbatim — only occurrences of the
workspace path itself are redacted. -/
theorem c9_counterexample_foreign_path_kept :
    strIncludes
      (sanitizeErrorForUser "Error: cannot open /etc/secrets/creds.txt" "/home/ws" 400)
      "/etc/secrets/creds.txt" = true := by
  decide

/-- Claim C9 (amended): a tool failure (non-zero exit, no timeout, not
classified as session loss) yields a failure result whose diagnostic is
exactly the at-most-300-character tail of stderr; the displayed sanitisation
is bounded by its `maxLen` (400 at the call site); Telegram-bot-token-shaped
substrings (a digit run of length at least 6, a colon, a word run of length
at least 20) are redacted; and occurrences of the configured workspace path
are replaced by a placeholder. -/
theorem c9_tool_failure_bounded_sanitized (inp : CloseInput) (store : SessionStore)
    (userId : Nat) (hk : inp.killed = false) (hc : inp.code ≠ some 0)
    (hnl : ¬(inp.isNew = false ∧ sessionLossMarker inp.stderr = true))
    (hs : inp.stderr ≠ "") :
    ((closeHandler inp store userId).1.success = false
      ∧ (closeHandler inp store userId).1.error = some (strTakeRight inp.stderr 300)
      ∧ ((closeHandler inp store userId).1.error.getD "").length ≤ 300
      ∧ (closeHandler inp store userId).2 = store)
    ∧ (∀ (t w : String) (n : Nat), (sanitizeErrorForUser t w n).length ≤ n)
    ∧ (∀ ds ws : List Char, 6 ≤ ds.length → (∀ c ∈ ds, isDigitCh c) →
        20 ≤ ws.length → (∀ c ∈ ws, isWordCh c) →
        redactTokens (ds ++ ':' :: ws) = "<TELEGRAM_TOKEN_REDACTED>".data)
    ∧ sanitizeErrorForUser "open /home/ws/x.txt failed" "/home/ws" 400
        = "open <WORKSPACE>/x.txt failed" := by
  have htail := strTakeRight_ne_empty hs (n := 300) (by omega)
  have h1 : closeHandler inp store userId
      = ({ success := false, output := "",
           error := some (jsOr (some (strTakeRight inp.stderr 300))
             ("Process exited with code " ++ codeText inp.code)),
           sessionId := some (jsOr inp.detectedSessionId inp.sessionId),
           costUsd := none, durationMs := inp.durationMs }, store) := by
    unfold closeHandler
    rw [if_neg (by simp [hk]), if_neg (fun hcon => hnl ⟨hcon.2.1, hcon.2.2⟩), if_pos hc]
  refine ⟨⟨?_, ?_, ?_, ?_⟩, ?_, ?_, ?_⟩
  · rw [h1]
  · rw [h1]
    show some (jsOr (some (strTakeRight inp.stderr 300)) _) = _
    rw [jsOr_some_of_ne htail]
  · rw [h1]
    show (Option.getD (some (jsOr (some (strTakeRight inp.stderr 300)) _)) "").length ≤ 300
    rw [Option.getD_some, jsOr_some_of_ne htail]
    exact strTakeRight_length_le _ _
  · rw [h1]
  · intro t w n
    simp only [sanitizeErrorForUser]
    by_cases he : (trimChars (normalizeCrlf t.data)).isEmpty
    · rw [if_pos he]
      exact Nat.zero_le n
    · rw [if_neg he]
      show (List.take n _).length ≤ n
      rw [List.length_take]
      exact Nat.min_le_left _ _
  · exact redactTokens_token
  · decide

/-- Concrete close-handler input for the C9 witness. -/
def inpC9 : CloseInput :=
  { code := some 2, killed := false, stderr := "boom", events := [],
    detectedSessionId := none, sessionId := "s", isNew := true,
    timeoutSecs := 300, durationMs := 5 }

theorem c9_tool_failure_bounded_sanitized_witness :
    (closeHandler inpC9 emptySessionStore 3).1.error = some (strTakeRight inpC9.stderr 300)
    ∧ (sanitizeErrorForUser "hello" "" 400).length ≤ 400
    ∧ redactTokens (['1', '2', '3', '4', '5', '6'] ++ ':' ::
        ['a', 'a', 'a', 'a', 'a', 'a', 'a', 'a', 'a', 'a',
         'a', 'a', 'a', 'a', 'a', 'a', 'a', 'a', 'a', 'a'])
      = "<TELEGRAM_TOKEN_REDACTED>".data := by
  have h := c9_tool_failure_bounded_sanitized inpC9 emptySessionStore 3 rfl (by decide)
    (by decide) (by decide)
  exact ⟨h.1.2.1, h.2.1 "hello" "" 400,
    h.2.2.1 _ _ (by decide) (by decide) (by decide) (by decide)⟩

/-! ## Hook pipeline and job dispatcher (bot.ts) -/

/-- The value a `beforeClaude` hook returns (the module contract): a deny
with an optional reply, a continue with an optional replacement message, or
any other/unrecognised action (ignored). -/
inductive HookValue where
  | deny (reply : Option String)
  | cont (message : Option String)
  | other

/-- A loaded module as the Dispatcher sees it: optional before/after hooks.
A hook is a function of the running message (resp. running result);
`Except.error` models a thrown exception carrying its message, `Except.ok
none` a hook that returns nothing. -/
structure BotModule where
  name : String
  beforeClaude : Option (String → Except String (Option HookValue))
  afterClaude : Option (ClaudeResult → Except String (Option ClaudeResult))

/-- Outcome of the before-hook chain. -/
inductive BeforeOutcome where
  | allowed (message : String)
  | denied (reply : Option String)
deriving DecidableEq

/-- Embedding of `runBeforeClaudeHooks` (bot.ts): hooks run sequentially in
registration order over the running message; a deny or a thrown error halts
the chain (fail-closed, the throw turned into a diagnostic deny reply naming
the module); a continue carrying a string replaces the running message. -/
def runBeforeClaudeHooks : List BotModule → String → BeforeOutcome
  | [], current => .allowed current
  | m :: rest, current =>
    match m.beforeClaude with
    | none => runBeforeClaudeHooks rest current
    | some f =>
      match f current with
      | .error msg =>
        .denied (some ("Module \x22" ++ m.name ++ "\x22 failed: " ++ strTake msg 300))
      | .ok none => runBeforeClaudeHooks rest current
      | .ok (some (.deny reply)) => .denied reply
      | .ok (some (.cont (some newMsg))) => runBeforeClaudeHooks rest newMsg
      | .ok (some (.cont none)) => runBeforeClaudeHooks rest current
      | .ok (some .other) => runBeforeClaudeHooks rest current

/-- Embedding of `runAfterClaudeHooks` (bot.ts): each hook may replace the
running result, a hook that returns nothing keeps it, and a thrown error is
logged and skipped (fail-open). -/
def runAfterClaudeHooks : List BotModule → ClaudeResult → ClaudeResult
  | [], current => current
  | m :: rest, current =>
    match m.afterClaude with
    | none => runAfterClaudeHooks rest current
    | some f =>
      match f current with
      | .error _ => runAfterClaudeHooks rest current
      | .ok none => runAfterClaudeHooks rest current
      | .ok (some next) => runAfterClaudeHooks rest next

/-- The mutable registries owned by one bot instance (bot.ts `createBot`):
the busy set and the running-job map (user id to an opaque job token). -/
structure DispatchState where
  busy : List Nat
  running : List (Nat × Nat)
deriving DecidableEq

/-- JS `Set.add` on user ids. -/
def busyAdd (l : List Nat) (u : Nat) : List Nat :=
  if l.contains u then l else u :: l

/-- JS `Set.delete` on user ids. -/
def busyDelete (l : List Nat) (u : Nat) : List Nat :=
  l.filter fun x => decide (x ≠ u)

/-- JS `Map.set` on the running-job registry. -/
def mapSet (l : List (Nat × Nat)) (k v : Nat) : List (Nat × Nat) :=
  (k, v) :: l.filter fun p => decide (p.1 ≠ k)

/-- JS `Map.delete` on the running-job registry. -/
def mapDelete (l : List (Nat × Nat)) (k : Nat) : List (Nat × Nat) :=
  l.filter fun p => decide (p.1 ≠ k)

/-- The environment one `dispatchToClaude` call interacts with: the loaded
modules, whether the placeholder status message sends successfully, the
result the runner's promise resolves with, whether `/cancel` or `/clear`
marked the job canceled before the promise settled, whether delivering the
final reply throws, the thrown message, the configured workspace, and the
opaque token identifying the job record. -/
structure DispatchEnv where
  modules : List BotModule
  statusSendOk : Bool
  runResult : ClaudeResult
  canceledDuringRun : Bool
  deliveryThrows : Bool
  thrownMessage : String
  workspace : String
  jobToken : Nat

/-- The externally observable actions of one `dispatchToClaude` call. -/
structure DispatchTrace where
  replies : List String
  sentOutputs : List String
  edits : List String
  spawned : Bool
deriving DecidableEq

/-- An empty trace (nothing sent, nothing spawned). -/
def emptyTrace : DispatchTrace :=
  { replies := [], sentOutputs := [], edits := [], spawned := false }

/-- The "still working" notice of the per-user concurrency guard. -/
def stillWorkingNotice : String :=
  "Still working on your previous message. Send /cancel to stop, or wait for the response."

/-- The error reply of the failure branch of `dispatchToClaude`. -/
def errorReplyText (error : Option String) (workspace : String) : String :=
  let safe :=
    if jsTruthy error then some (sanitizeErrorForUser (error.getD "") workspace 400)
    else none
  if jsTruthy safe then "Something went wrong: " ++ safe.getD ""
  else "Something went wrong. Try again, or /clear to start fresh."

/-- The status-edit text of the catch branch of `dispatchToClaude`. -/
def deliveryErrorEdit (thrownMessage workspace : String) : String :=
  let safe := sanitizeErrorForUser thrownMessage workspace 400
  if safe ≠ "" then
    "Something went wrong: " ++ safe ++ "\n\nTry again or /clear to start fresh."
  else "Something went wrong.\n\nTry again or /clear to start fresh."

/-- Embedding of `dispatchToClaude` (bot.ts): the missing-id and blank-message
guards, the per-user concurrency guard, the before-hook chain (a deny ends
the turn with its reply), the placeholder status message, the runner call
with job registration and after-hooks, and delivery of the final result —
with every path past the guard deleting the user from the busy set (the
early returns explicitly, the rest in `finally`). -/
def dispatchToClaude (env : DispatchEnv) (st : DispatchState)
    (userId chatId : Option Nat) (message : String) :
    DispatchState × DispatchTrace :=
  match userId, chatId with
  | some uid, some _ =>
    if message.data.isEmpty ∨ (trimChars message.data).isEmpty then (st, emptyTrace)
    else if st.busy.contains uid then
      (st, { replies := [stillWorkingNotice], sentOutputs := [], edits := [],
             spawned := false })
    else
      let st1 : DispatchState := { st with busy := busyAdd st.busy uid }
      match runBeforeClaudeHooks env.modules message with
      | .denied reply =>
        ({ st1 with busy := busyDelete st1.busy uid },
         { replies := match reply with
             | some r => if r ≠ "" then [r] else []
             | none => [],
           sentOutputs := [], edits := [], spawned := false })
      | .allowed finalMessage =>
        if finalMessage.data.isEmpty ∨ (trimChars finalMessage.data).isEmpty then
          ({ st1 with busy := busyDelete st1.busy uid }, emptyTrace)
        else if env.statusSendOk = false then
          ({ st1 with busy := busyDelete st1.busy uid }, emptyTrace)
        else
          let st2 : DispatchState := { st1 with running := mapSet st1.running uid env.jobToken }
          let st3 : DispatchState := { st2 with running := mapDelete st2.running uid }
          if env.canceledDuringRun then
            ({ st3 with busy := busyDelete st3.busy uid },
             { replies := [], sentOutputs := [], edits := [], spawned := true })
          else
            let finalResult := runAfterClaudeHooks env.modules env.runResult
            if env.deliveryThrows then
              ({ st3 with busy := busyDelete st3.busy uid },
               { replies := [], sentOutputs := [],
                 edits := [deliveryErrorEdit env.thrownMessage env.workspace],
                 spawned := true })
            else if finalResult.success ∧ finalResult.output ≠ "" then
              ({ st3 with busy := busyDelete st3.busy uid },
               { replies := [], sentOutputs := [finalResult.output], edits := [],
                 spawned := true })
            else if finalResult.success then
              ({ st3 with busy := busyDelete st3.busy uid },
               { replies := ["Claude returned an empty response. Try rephrasing, or /clear to start fresh."],
                 sentOutputs := [], edits := [], spawned := true })
            else
              ({ st3 with busy := busyDelete st3.busy uid },
               { replies := [errorReplyText finalResult.error env.workspace],
                 sentOutputs := [], edits := [], spawned := true })
  | _, _ => (st, emptyTrace)

theorem busyDelete_contains (l : List Nat) (u : Nat) :
    (busyDelete l u).contains u = false := by
  simp [busyDelete]

/-- Claim C1: submitting while a job for the user is in flight makes the
Dispatcher reply with the "still working" notice and return with the
registries untouched — no subprocess is spawned and no second job is
registered. -/
theorem c1_at_most_one_in_flight (env : DispatchEnv) (st : DispatchState)
    (uid chatId : Nat) (message : String)
    (hbusy : st.busy.contains uid = true)
    (hmsg : (trimChars message.data).isEmpty = false) :
    dispatchToClaude env st (some uid) (some chatId) message
      = (st, { replies := [stillWorkingNotice], sentOutputs := [], edits := [],
               spawned := false }) := by
  have hne : message.data.isEmpty = false := by
    cases hd : message.data with
    | nil =>
      rw [hd] at hmsg
      simp [trimChars] at hmsg
    | cons a l => rfl
  show (if message.data.isEmpty ∨ (trimChars message.data).isEmpty then (st, emptyTrace)
    else if st.busy.contains uid then
      (st, { replies := [stillWorkingNotice], sentOutputs := [], edits := [],
             spawned := false })
    else _) = _
  rw [if_neg (by simp [hne, hmsg]), if_pos hbusy]

/-- A fixed innocuous dispatch environment used by witnesses. -/
def envW : DispatchEnv :=
  { modules := [], statusSendOk := true,
    runResult := { success := true, output := "ok", error := none,
                   sessionId := none, costUsd := none, durationMs := 1 },
    canceledDuringRun := false, deliveryThrows := false, thrownMessage := "",
    workspace := "", jobToken := 0 }

theorem c1_at_most_one_in_flight_witness :
    (([7] : List Nat).contains 7 = true)
    ∧ dispatchToClaude envW ⟨[7], []⟩ (some 7) (some 1) "hi"
      = (⟨[7], []⟩, { replies := [stillWorkingNotice], sentOutputs := [], edits := [],
                      spawned := false }) :=
  ⟨by decide, c1_at_most_one_in_flight envW ⟨[7], []⟩ 7 1 "hi" (by decide) (by decide)⟩

theorem runBeforeClaudeHooks_append (mods1 mods2 : List BotModule) (msg : String) :
    runBeforeClaudeHooks (mods1 ++ mods2) msg
      = (match runBeforeClaudeHooks mods1 msg with
         | .allowed m => runBeforeClaudeHooks mods2 m
         | .denied r => .denied r) := by
  induction mods1 generalizing msg with
  | nil => rfl
  | cons m rest ih =>
    simp only [List.cons_append, runBeforeClaudeHooks]
    cases hb : m.beforeClaude with
    | none =>
      simp only [hb]
      exact ih msg
    | some f =>
      simp only [hb]
      cases hf : f msg with
      | error e => simp only [hf]
      | ok v =>
        cases v with
        | none => exact ih msg
        | some hv =>
          cases hv with
          | deny r => rfl
          | cont mo =>
            cases mo with
            | some nm => exact ih nm
            | none => exact ih msg
          | other => exact ih msg

/-- Claim C5: before-hooks run sequentially in registration order over the
running message; a hook returning deny — or throwing, which is treated as a
deny carrying a diagnostic reply (fail-closed) — halts the chain regardless
of later hooks; on a denied turn no subprocess is spawned and the
Dispatcher's outward reply equals the deny reply (deny with reply "blocked"
yields the single outward reply "blocked"). -/
theorem c5_deny_halts_fail_closed
    (pre post : List BotModule) (name : String)
    (f : String → Except String (Option HookValue))
    (af : Option (ClaudeResult → Except String (Option ClaudeResult)))
    (msg cur : String)
    (hpre : runBeforeClaudeHooks pre msg = .allowed cur) :
    (∀ r, f cur = .ok (some (.deny r)) →
      runBeforeClaudeHooks (pre ++ ⟨name, some f, af⟩ :: post) msg = .denied r)
    ∧ (∀ e, f cur = .error e →
      runBeforeClaudeHooks (pre ++ ⟨name, some f, af⟩ :: post) msg
        = .denied (some ("Module \x22" ++ name ++ "\x22 failed: " ++ strTake e 300)))
    ∧ (∀ (env : DispatchEnv) (st : DispatchState) (uid chatId : Nat),
        env.modules = pre ++ ⟨name, some f, af⟩ :: post →
        f cur = .ok (some (.deny (some "blocked"))) →
        st.busy.contains uid = false →
        (trimChars msg.data).isEmpty = false →
        (dispatchToClaude env st (some uid) (some chatId) msg).2
            = { replies := ["blocked"], sentOutputs := [], edits := [],
                spawned := false }
          ∧ (dispatchToClaude env st (some uid) (some chatId) msg).1.running
              = st.running) := by
  have hstep : ∀ r, f cur = .ok (some (.deny r)) →
      runBeforeClaudeHooks (pre ++ ⟨name, some f, af⟩ :: post) msg = .denied r := by
    intro r hf
    rw [runBeforeClaudeHooks_append, hpre]
    show runBeforeClaudeHooks (⟨name, some f, af⟩ :: post) cur = .denied r
    simp only [runBeforeClaudeHooks]
    rw [hf]
  refine ⟨hstep, ?_, ?_⟩
  · intro e hf
    rw [runBeforeClaudeHooks_append, hpre]
    show runBeforeClaudeHooks (⟨name, some f, af⟩ :: post) cur = _
    simp only [runBeforeClaudeHooks]
    rw [hf]
  · intro env st uid chatId hmod hf hbusy hmsg
    have hrun : runBeforeClaudeHooks env.modules msg = .denied (some "blocked") := by
      rw [hmod]
      exact hstep (some "blocked") hf
    have hne : msg.data.isEmpty = false := by
      cases hd : msg.data with
      | nil =>
        rw [hd] at hmsg
        simp [trimChars] at hmsg
      | cons a l => rfl
    have hd : dispatchToClaude env st (some uid) (some chatId) msg
        = ({ st with busy := busyDelete (busyAdd st.busy uid) uid },
           { replies := ["blocked"], sentOutputs := [], edits := [],
             spawned := false }) := by
      simp only [dispatchToClaude]
      rw [if_neg (by simp [hne, hmsg]), if_neg (by simpa using hbusy), hrun]
      simp
    rw [hd]
    exact ⟨rfl, rfl⟩

/-- The deny-everything hook of the C5 witness. -/
def denyBlockedHook : String → Except String (Option HookValue) :=
  fun _ => Except.ok (some (HookValue.deny (some "blocked")))

/-- The denying module of the C5 witness. -/
def denierW : BotModule := ⟨"guard", some denyBlockedHook, none⟩

/-- The dispatch environment of the C5 witness. -/
def envC5 : DispatchEnv := { envW with modules := [denierW] }

theorem c5_deny_halts_fail_closed_witness :
    runBeforeClaudeHooks [] "hello" = .allowed "hello"
    ∧ runBeforeClaudeHooks [denierW] "hello" = .denied (some "blocked")
    ∧ (dispatchToClaude envC5 ⟨[], []⟩ (some 1) (some 2) "hello").2
        = { replies := ["blocked"], sentOutputs := [], edits := [],
            spawned := false } := by
  have h := c5_deny_halts_fail_closed [] [] "guard" denyBlockedHook none
    "hello" "hello" rfl
  exact ⟨rfl, h.1 (some "blocked") rfl,
    (h.2.2 envC5 ⟨[], []⟩ 1 2 rfl rfl (by decide) (by decide)).1⟩

/-- Claim C10: an invocation of `dispatchToClaude` for a user who was not
already busy never leaves that user in the busy set on return — the guard
rejections, hook denial, blank-after-hooks, failed status send, cancellation,
delivery exception and normal completion paths all release it. -/
theorem c10_busy_always_released (env : DispatchEnv) (st : DispatchState)
    (uid : Nat) (chatId : Option Nat) (message : String)
    (h : st.busy.contains uid = false) :
    (dispatchToClaude env st (some uid) chatId message).1.busy.contains uid = false := by
  cases chatId with
  | none => exact h
  | some c =>
    simp only [dispatchToClaude]
    repeat' split
    all_goals first
      | exact h
      | exact busyDelete_contains _ _

theorem c10_busy_always_released_witness :
    (([] : List Nat).contains 7 = false)
    ∧ (dispatchToClaude envW ⟨[], []⟩ (some 7) (some 1) "hello").1.busy.contains 7
        = false :=
  ⟨by decide, c10_busy_always_released envW ⟨[], []⟩ 7 (some 1) "hello" (by decide)⟩
